import Mathlib

/-!
Verification of `src/feature/__init__.py` of the speaker-recognition
repository: a glue module that resolves an MFCC extractor (fast Bob-backed
variant with a pure fallback), wraps extraction functions into one-argument
callables (`get_extractor`), and mixes MFCC and LPC features per input tuple
(`mix_feature`) by concatenating the two feature matrices along axis 1.

The embedding is shallow: Python values that matter to the module (tuple
elements queried with `len`) are an inductive `PyVal`; feature matrices are
lists of rows; fallible Python operations return `Except String`; writes to
the error stream and extractor invocations are recorded explicitly in an
`Effects` record threaded through `mix_feature`.
-/

namespace Feature

/-- A Python value as far as this module observes it: either a sized
sequence (supports `len`; the module observes nothing about it beyond its
length, so it is represented by that length) or an opaque object without a
length. -/
inductive PyVal where
  | obj : PyVal
  | seq : Nat → PyVal
deriving DecidableEq, Repr

/-- Python `len(v)`: succeeds on sized sequences, raises `TypeError`
otherwise. -/
def pyLen : PyVal → Except String Nat
  | PyVal.seq n => Except.ok n
  | PyVal.obj => Except.error "TypeError: object has no len()"

/-- Python tuple indexing `tup[i]`: raises `IndexError` when out of range. -/
def pyIndex (tup : List PyVal) (i : Nat) : Except String PyVal :=
  match tup[i]? with
  | some v => Except.ok v
  | none => Except.error "IndexError: tuple index out of range"

/-- The expression `len(tup[1])` from the diagnostic line of `mix_feature`. -/
def pyLenOfSecond (tup : List PyVal) : Except String Nat :=
  match pyIndex tup 1 with
  | Except.ok v => pyLen v
  | Except.error e => Except.error e

/-- Shape predicate for a feature matrix as a list of rows: `f` frames,
each row of length `c`. -/
def matHasShape (m : List (List α)) (f c : Nat) : Prop :=
  m.length = f ∧ ∀ row ∈ m, row.length = c

instance (m : List (List α)) (f c : Nat) : Decidable (matHasShape m f c) := by
  unfold matHasShape; infer_instance

/-- The error message of `np.concatenate` on mismatched frame counts. -/
def shapeMismatchMsg (f1 f2 : Nat) : String :=
  "ValueError: all the input array dimensions except for the concatenation " ++
    "axis must match exactly: " ++ toString f1 ++ " != " ++ toString f2

/-- `np.concatenate((a, b), axis=1)` on two 2-D arrays given as lists of
rows: requires equal frame counts (dimension 0), then joins the rows
pairwise, placing the columns of `a` before the columns of `b`. -/
def npConcatAxis1 (a b : List (List α)) : Except String (List (List α)) :=
  if a.length = b.length then
    Except.ok (List.zipWith (fun x y => x ++ y) a b)
  else
    Except.error (shapeMismatchMsg a.length b.length)

/-- One recorded extractor invocation of `mix_feature`: which extractor was
called and on which input tuple. -/
inductive ExtCall where
  | mfcc : List PyVal → ExtCall
  | lpc : List PyVal → ExtCall
deriving DecidableEq, Repr

/-- Observable effects of a `mix_feature` call: the extractor invocations in
order, and the lines written to the error stream. -/
structure Effects where
  calls : List ExtCall
  stderrLines : List String
deriving DecidableEq, Repr

/-- Sequential composition of effects. -/
def Effects.append (e1 e2 : Effects) : Effects :=
  ⟨e1.calls ++ e2.calls, e1.stderrLines ++ e2.stderrLines⟩

/-- The two resolved extractors `mix_feature` delegates to, each an opaque
`extract(input_tuple) -> FeatureMatrix` capability. -/
structure Env (α : Type) where
  mfccExtract : List PyVal → List (List α)
  lpcExtract : List PyVal → List (List α)

/-- The diagnostic line `print("ERROR.. failed to extract mfcc feature:",
len(tup[1]), file=sys.stderr)`. -/
def mfccFailMsg (n : Nat) : String :=
  "ERROR.. failed to extract mfcc feature: " ++ toString n

/-- `mix_feature(tup)`:

    mfcc = MFCC.extract(tup)
    lpc = LPC.extract(tup)
    if len(mfcc) == 0:
        print("ERROR.. failed to extract mfcc feature:", len(tup[1]),
              file=sys.stderr)
    return np.concatenate((mfcc, lpc), axis=1)

Returns the result (or the raised error) together with the recorded
effects. When the diagnostic expression `len(tup[1])` itself raises, that
error propagates and the concatenation is never reached. -/
def mix_feature (env : Env α) (tup : List PyVal) :
    Except String (List (List α)) × Effects :=
  let mfcc := env.mfccExtract tup
  let lpc := env.lpcExtract tup
  let eff : Effects := ⟨[ExtCall.mfcc tup, ExtCall.lpc tup], []⟩
  if mfcc.length = 0 then
    match pyLenOfSecond tup with
    | Except.error e => (Except.error e, eff)
    | Except.ok n =>
        (npConcatAxis1 mfcc lpc,
         ⟨eff.calls, eff.stderrLines ++ [mfccFailMsg n]⟩)
  else
    (npConcatAxis1 mfcc lpc, eff)

/-- A sequence of independent `mix_feature` calls, accumulating effects:
each call performs fresh extraction work. -/
def mixFeatureRuns (env : Env α) (tups : List (List PyVal)) :
    List (Except String (List (List α))) × Effects :=
  match tups with
  | [] => ([], ⟨[], []⟩)
  | t :: ts =>
      let r := mix_feature env t
      let rs := mixFeatureRuns env ts
      (r.1 :: rs.1, r.2.append rs.2)

/-- A keyword-argument mapping, as bound by `get_extractor(**kwargs)`. -/
def Kwargs : Type := List (String × PyVal)

/-- A Python extraction function as this module calls it: a fixed count of
positional parameters and a body receiving the positional arguments and the
keyword arguments. -/
structure PyFunc (β : Type) where
  arity : Nat
  impl : List PyVal → Kwargs → β

/-- The error message Python raises on a positional-arity mismatch. -/
def arityMsg (expected got : Nat) : String :=
  "TypeError: function takes " ++ toString expected ++
    " positional arguments but " ++ toString got ++ " were given"

/-- The Python call `f(*args, **kwargs)`: checks the positional arity, then
runs the body; an arity violation raises and nothing catches it here. -/
def pyCall (f : PyFunc β) (args : List PyVal) (kwargs : Kwargs) :
    Except String β :=
  if args.length = f.arity then Except.ok (f.impl args kwargs)
  else Except.error (arityMsg f.arity args.length)

/-- The closure returned by `get_extractor`: it captures `extract_func` and
the bound `kwargs`, and nothing else. -/
structure ExtractorClosure (β : Type) where
  func : PyFunc β
  kwargs : Kwargs

/-- `get_extractor(extract_func, **kwargs)`: builds the one-argument
closure `f(tup) = extract_func(*tup, **kwargs)`. -/
def get_extractor (f : PyFunc β) (kwargs : Kwargs) : ExtractorClosure β :=
  ⟨f, kwargs⟩

/-- Invoking the closure on an input tuple: unpacks the tuple as positional
arguments, passes the captured kwargs, and returns the call result paired
with the closure's state after the call. The closure body assigns to no
captured variable, so the state after the call is the captured pair
unchanged. -/
def ExtractorClosure.invoke (c : ExtractorClosure β) (tup : List PyVal) :
    Except String β × ExtractorClosure β :=
  (pyCall c.func tup c.kwargs, ⟨c.func, c.kwargs⟩)

/-- A sequence of invocations of one closure, threading the closure state
from call to call and collecting the results. -/
def invokeSeq (c : ExtractorClosure β) (tups : List (List PyVal)) :
    List (Except String β) × ExtractorClosure β :=
  match tups with
  | [] => ([], c)
  | t :: ts =>
      let r := c.invoke t
      let rs := invokeSeq r.2 ts
      (r.1 :: rs.1, rs.2)

/-- Which implementation ends up bound to the `MFCC` name. -/
inductive MfccImpl where
  | bob : MfccImpl
  | fallback : MfccImpl
deriving DecidableEq, Repr

/-- The warning line printed when the Bob import fails. -/
def bobFailWarning : String :=
  "Warning: failed to import Bob, will use a slower version of MFCC instead."

/-- Modelled from the spec: the fallback module load performed in the
except branch. The fallback MFCC module itself is not part of the supplied
fragment; the spec describes it as a slower, self-contained implementation
that the resolver always succeeds in substituting, so loading it is
modelled as always succeeding. -/
def fallbackImport : Except String Unit := Except.ok ()

/-- Outcome of module initialization: the bound implementation (or a
propagated error), the lines written to the error stream, and the lines
written to standard output. -/
structure InitResult where
  outcome : Except String MfccImpl
  stderrLines : List String
  stdoutLines : List String
deriving Repr

/-- Module initialization:

    try:
        from . import BOB as MFCC
    except Exception as e:
        print(e, file=sys.stderr)
        print("Warning: failed to import Bob, ...", file=sys.stderr)
        from . import MFCC

parameterized by the outcome of the Bob import attempt. On success, Bob is
bound silently; on any failure, the error text and the warning are printed
to the error stream and the fallback import runs. -/
def moduleInit (bobImport : Except String Unit) : InitResult :=
  match bobImport with
  | Except.ok _ => ⟨Except.ok MfccImpl.bob, [], []⟩
  | Except.error e =>
      match fallbackImport with
      | Except.ok _ =>
          ⟨Except.ok MfccImpl.fallback, [e, bobFailWarning], []⟩
      | Except.error e2 => ⟨Except.error e2, [e, bobFailWarning], []⟩

/-! Helper lemmas about row-wise concatenation and the branch structure of
`mix_feature`. -/

theorem zipWith_append_getElem? :
    ∀ (a b : List (List α)) (i : Nat) (x y : List α),
      a[i]? = some x → b[i]? = some y →
      (List.zipWith (fun u v => u ++ v) a b)[i]? = some (x ++ y) := by
  intro a
  induction a with
  | nil => intro b i x y hx; simp at hx
  | cons ha ta ih =>
      intro b i x y hx hy
      cases b with
      | nil => simp at hy
      | cons hb tb =>
          cases i with
          | zero =>
              simp at hx hy
              simp [List.zipWith, hx, hy]
          | succ j =>
              simp at hx hy
              simpa using ih tb j x y hx hy

theorem zipWith_append_mem :
    ∀ (a b : List (List α)) (row : List α),
      row ∈ List.zipWith (fun u v => u ++ v) a b →
      ∃ x, x ∈ a ∧ ∃ y, y ∈ b ∧ row = x ++ y := by
  intro a
  induction a with
  | nil => intro b row h; simp at h
  | cons ha ta ih =>
      intro b row h
      cases b with
      | nil => simp at h
      | cons hb tb =>
          simp only [List.zipWith, List.mem_cons] at h
          rcases h with h | h
          · exact ⟨ha, by simp, hb, by simp, h⟩
          · obtain ⟨x, hx, y, hy, hrow⟩ := ih tb row h
            exact ⟨x, by simp [hx], y, by simp [hy], hrow⟩

theorem zipWith_append_shape (a b : List (List α)) (F M L : Nat)
    (hm : matHasShape a F M) (hl : matHasShape b F L) :
    matHasShape (List.zipWith (fun u v => u ++ v) a b) F (M + L) := by
  constructor
  · rw [List.length_zipWith, hm.1, hl.1, Nat.min_self]
  · intro row hrow
    obtain ⟨x, hx, y, hy, hrow⟩ := zipWith_append_mem a b row hrow
    rw [hrow, List.length_append, hm.2 x hx, hl.2 y hy]

theorem pyLenOfSecond_of_seq (tup : List PyVal) (n : Nat)
    (h : tup[1]? = some (PyVal.seq n)) :
    pyLenOfSecond tup = Except.ok n := by
  simp [pyLenOfSecond, pyIndex, h, pyLen]

theorem npConcatAxis1_ok (a b : List (List α)) (h : a.length = b.length) :
    npConcatAxis1 a b = Except.ok (List.zipWith (fun u v => u ++ v) a b) := by
  simp [npConcatAxis1, h]

theorem mix_feature_fst_of_seq (env : Env α) (tup : List PyVal) (n : Nat)
    (hsig : tup[1]? = some (PyVal.seq n)) :
    (mix_feature env tup).1 =
      npConcatAxis1 (env.mfccExtract tup) (env.lpcExtract tup) := by
  simp only [mix_feature]
  split
  · rw [pyLenOfSecond_of_seq tup n hsig]
  · rfl

theorem mix_feature_calls (env : Env α) (tup : List PyVal) :
    (mix_feature env tup).2.calls = [ExtCall.mfcc tup, ExtCall.lpc tup] := by
  simp only [mix_feature]
  split
  · split <;> rfl
  · rfl

theorem invokeSeq_eq (c : ExtractorClosure β) :
    ∀ tups : List (List PyVal),
      invokeSeq c tups = (tups.map (fun t => pyCall c.func t c.kwargs), c)
  | [] => rfl
  | t :: ts => by
      simp [invokeSeq, ExtractorClosure.invoke, invokeSeq_eq c ts]

theorem mixFeatureRuns_calls (env : Env α) :
    ∀ tups : List (List PyVal),
      (mixFeatureRuns env tups).2.calls =
        tups.flatMap (fun t => [ExtCall.mfcc t, ExtCall.lpc t])
  | [] => rfl
  | t :: ts => by
      simp [mixFeatureRuns, Effects.append, mix_feature_calls,
        mixFeatureRuns_calls env ts]

/-! The claims. -/

/-- C1: whenever the resolved MFCC extractor returns a matrix of shape
(F, M) and the LPC extractor returns shape (F, L) on the same input tuple
(an `InputTuple` in the sense of the spec: its second component is the raw
signal, a sized sequence), `mix_feature` returns a matrix of shape
(F, M + L) whose every frame is the MFCC row followed by the LPC row — all
M MFCC columns before all L LPC columns. -/
theorem mix_feature_concat_shape (env : Env α) (tup : List PyVal)
    (n F M L : Nat) (hsig : tup[1]? = some (PyVal.seq n))
    (hm : matHasShape (env.mfccExtract tup) F M)
    (hl : matHasShape (env.lpcExtract tup) F L) :
    ∃ r, (mix_feature env tup).1 = Except.ok r ∧
      matHasShape r F (M + L) ∧
      ∀ (i : Nat) (x y : List α), (env.mfccExtract tup)[i]? = some x →
        (env.lpcExtract tup)[i]? = some y → r[i]? = some (x ++ y) := by
  refine ⟨List.zipWith (fun u v => u ++ v)
    (env.mfccExtract tup) (env.lpcExtract tup), ?_, ?_, ?_⟩
  · rw [mix_feature_fst_of_seq env tup n hsig]
    exact npConcatAxis1_ok _ _ (hm.1.trans hl.1.symm)
  · exact zipWith_append_shape _ _ F M L hm hl
  · intro i x y hx hy
    exact zipWith_append_getElem? _ _ i x y hx hy

theorem mix_feature_concat_shape_witness :
    (([PyVal.obj, PyVal.seq 5] : List PyVal)[1]? = some (PyVal.seq 5)) ∧
    matHasShape ((⟨fun _ => [[(1 : Int), 2], [3, 4]], fun _ => [[5], [6]]⟩ :
      Env Int).mfccExtract [PyVal.obj, PyVal.seq 5]) 2 2 ∧
    matHasShape ((⟨fun _ => [[(1 : Int), 2], [3, 4]], fun _ => [[5], [6]]⟩ :
      Env Int).lpcExtract [PyVal.obj, PyVal.seq 5]) 2 1 ∧
    ∃ r, (mix_feature (⟨fun _ => [[(1 : Int), 2], [3, 4]],
        fun _ => [[5], [6]]⟩ : Env Int) [PyVal.obj, PyVal.seq 5]).1 =
      Except.ok r ∧ matHasShape r 2 (2 + 1) ∧
      ∀ (i : Nat) (x y : List Int),
        ((⟨fun _ => [[(1 : Int), 2], [3, 4]], fun _ => [[5], [6]]⟩ :
          Env Int).mfccExtract [PyVal.obj, PyVal.seq 5])[i]? = some x →
        ((⟨fun _ => [[(1 : Int), 2], [3, 4]], fun _ => [[5], [6]]⟩ :
          Env Int).lpcExtract [PyVal.obj, PyVal.seq 5])[i]? = some y →
        r[i]? = some (x ++ y) :=
  ⟨rfl, by decide, by decide,
    mix_feature_concat_shape _ _ 5 2 2 1 rfl (by decide) (by decide)⟩

/-- C2: whenever the MFCC extractor returns F1 frames and the LPC extractor
returns F2 frames with F1 ≠ F2, `mix_feature` never returns a matrix; and
whenever control reaches the concatenation step (the MFCC result is
nonempty, or the diagnostic expression `len(tup[1])` succeeds), the error
is precisely the shape-mismatch error of the concatenation step. -/
theorem mix_feature_frame_mismatch_fails (env : Env α) (tup : List PyVal)
    (hne : (env.mfccExtract tup).length ≠ (env.lpcExtract tup).length) :
    (∀ r, (mix_feature env tup).1 ≠ Except.ok r) ∧
    ((env.mfccExtract tup).length ≠ 0 ∨ (∃ n, pyLenOfSecond tup = Except.ok n) →
      (mix_feature env tup).1 = Except.error
        (shapeMismatchMsg (env.mfccExtract tup).length
          (env.lpcExtract tup).length)) := by
  have hconc : npConcatAxis1 (env.mfccExtract tup) (env.lpcExtract tup) =
      Except.error (shapeMismatchMsg (env.mfccExtract tup).length
        (env.lpcExtract tup).length) := by
    simp [npConcatAxis1, hne]
  constructor
  · intro r hr
    revert hr
    simp only [mix_feature]
    split
    · cases hdiag : pyLenOfSecond tup with
      | error e => simp
      | ok m => simp [hconc]
    · simp [hconc]
  · intro hreach
    simp only [mix_feature]
    split
    · rename_i hzero
      rcases hreach with hF | ⟨m, hm⟩
      · exact absurd hzero hF
      · rw [hm]; simp [hconc]
    · simp [hconc]

theorem mix_feature_frame_mismatch_fails_witness :
    (((⟨fun _ => [[(1 : Int)]], fun _ => []⟩ : Env Int).mfccExtract []).length ≠
      ((⟨fun _ => [[(1 : Int)]], fun _ => []⟩ : Env Int).lpcExtract []).length) ∧
    ((∀ r, (mix_feature (⟨fun _ => [[(1 : Int)]], fun _ => []⟩ : Env Int) []).1 ≠
        Except.ok r) ∧
      ((((⟨fun _ => [[(1 : Int)]], fun _ => []⟩ : Env Int).mfccExtract []).length ≠ 0 ∨
          (∃ n, pyLenOfSecond [] = Except.ok n)) →
        (mix_feature (⟨fun _ => [[(1 : Int)]], fun _ => []⟩ : Env Int) []).1 =
          Except.error (shapeMismatchMsg
            (((⟨fun _ => [[(1 : Int)]], fun _ => []⟩ : Env Int).mfccExtract []).length)
            (((⟨fun _ => [[(1 : Int)]], fun _ => []⟩ : Env Int).lpcExtract []).length)))) :=
  ⟨by decide, mix_feature_frame_mismatch_fails _ _ (by decide)⟩

/-- C3: when the MFCC extractor returns a matrix of shape (0, M) and the
LPC extractor returns shape (0, L) on the same input tuple (whose second
component is the raw signal, a sized sequence of length n), `mix_feature`
does not raise: it writes exactly one diagnostic line to the error stream
reporting that raw-signal length, and returns a matrix of shape
(0, M + L). -/
theorem mix_feature_empty_mfcc_tolerated (env : Env α) (tup : List PyVal)
    (n M L : Nat) (hsig : tup[1]? = some (PyVal.seq n))
    (hm : matHasShape (env.mfccExtract tup) 0 M)
    (hl : matHasShape (env.lpcExtract tup) 0 L) :
    ∃ r, (mix_feature env tup).1 = Except.ok r ∧ matHasShape r 0 (M + L) ∧
      (mix_feature env tup).2.stderrLines = [mfccFailMsg n] := by
  have hmfcc : env.mfccExtract tup = [] := List.length_eq_zero.mp hm.1
  have hlpc : env.lpcExtract tup = [] := List.length_eq_zero.mp hl.1
  have hrun : mix_feature env tup =
      (Except.ok [], ⟨[ExtCall.mfcc tup, ExtCall.lpc tup], [mfccFailMsg n]⟩) := by
    simp [mix_feature, hmfcc, hlpc, pyLenOfSecond_of_seq tup n hsig,
      npConcatAxis1]
  exact ⟨[], by rw [hrun], ⟨rfl, by simp⟩, by rw [hrun]⟩

theorem mix_feature_empty_mfcc_tolerated_witness :
    (([PyVal.obj, PyVal.seq 7] : List PyVal)[1]? = some (PyVal.seq 7)) ∧
    matHasShape ((⟨fun _ => [], fun _ => []⟩ :
      Env Int).mfccExtract [PyVal.obj, PyVal.seq 7]) 0 3 ∧
    matHasShape ((⟨fun _ => [], fun _ => []⟩ :
      Env Int).lpcExtract [PyVal.obj, PyVal.seq 7]) 0 2 ∧
    ∃ r, (mix_feature (⟨fun _ => [], fun _ => []⟩ : Env Int)
        [PyVal.obj, PyVal.seq 7]).1 = Except.ok r ∧
      matHasShape r 0 (3 + 2) ∧
      (mix_feature (⟨fun _ => [], fun _ => []⟩ : Env Int)
        [PyVal.obj, PyVal.seq 7]).2.stderrLines = [mfccFailMsg 7] :=
  ⟨rfl, by decide, by decide,
    mix_feature_empty_mfcc_tolerated _ _ 7 3 2 rfl (by decide) (by decide)⟩

/-- C4: the callable built by `get_extractor` is a pure pass-through: on
any input tuple it returns exactly what the Python call
`extract_func(*tup, **kwargs)` returns, with no transformation; in
particular, for a function of two positional parameters and the
configuration binding `sr`, invoking it on `(a, b)` yields the value of
`extract_func(a, b, sr=...)` directly. -/
theorem get_extractor_pass_through :
    (∀ (β : Type) (f : PyFunc β) (kw : Kwargs) (tup : List PyVal),
      ((get_extractor f kw).invoke tup).1 = pyCall f tup kw) ∧
    (∀ (β : Type) (g : List PyVal → Kwargs → β) (a b srVal : PyVal),
      ((get_extractor ⟨2, g⟩ [("sr", srVal)]).invoke [a, b]).1 =
        Except.ok (g [a, b] [("sr", srVal)])) := by
  constructor
  · intro β f kw tup; rfl
  · intro β g a b srVal
    simp [get_extractor, ExtractorClosure.invoke, pyCall]

/-- C5: when the Bob import raises an error, module initialization does not
propagate it: it binds the fallback MFCC implementation, and the error
stream receives the error text (as its first line) followed by the warning
line. -/
theorem moduleInit_bob_failure_fallback (e : String) :
    moduleInit (Except.error e) =
      ⟨Except.ok MfccImpl.fallback, [e, bobFailWarning], []⟩ ∧
    e ∈ (moduleInit (Except.error e)).stderrLines := by
  constructor
  · rfl
  · simp [moduleInit, fallbackImport]

/-- C6: extractor resolution never raises to the importer (it always
produces a bound implementation) and never writes to standard output,
whatever the outcome of the Bob import attempt. -/
theorem moduleInit_no_raise_no_stdout (b : Except String Unit) :
    (∃ impl, (moduleInit b).outcome = Except.ok impl) ∧
    (moduleInit b).stdoutLines = [] := by
  cases b with
  | ok u => exact ⟨⟨MfccImpl.bob, rfl⟩, rfl⟩
  | error e => exact ⟨⟨MfccImpl.fallback, rfl⟩, rfl⟩

/-- C7: every `mix_feature` call invokes the MFCC extractor on the input
tuple first and then the LPC extractor on the same tuple, each exactly
once; over any sequence of calls the invocation trace is exactly the
per-call pair of invocations repeated afresh for each call — no caching
between calls. -/
theorem mix_feature_invocation_order (env : Env α)
    (tups : List (List PyVal)) :
    (∀ tup, (mix_feature env tup).2.calls =
      [ExtCall.mfcc tup, ExtCall.lpc tup]) ∧
    (mixFeatureRuns env tups).2.calls =
      tups.flatMap (fun t => [ExtCall.mfcc t, ExtCall.lpc t]) :=
  ⟨fun tup => mix_feature_calls env tup, mixFeatureRuns_calls env tups⟩

/-- C8: when the closure built by `get_extractor` is invoked on a tuple
whose arity does not match the extraction function's positional parameter
count, the arity error of the underlying call propagates unmodified: the
result is exactly the arity error, identical to what the direct call
produces. -/
theorem get_extractor_arity_error_propagates (β : Type) (f : PyFunc β)
    (kw : Kwargs) (tup : List PyVal) (hne : tup.length ≠ f.arity) :
    ((get_extractor f kw).invoke tup).1 =
      Except.error (arityMsg f.arity tup.length) ∧
    ((get_extractor f kw).invoke tup).1 = pyCall f tup kw := by
  constructor
  · simp [get_extractor, ExtractorClosure.invoke, pyCall, hne]
  · rfl

theorem get_extractor_arity_error_propagates_witness :
    (([PyVal.obj] : List PyVal).length ≠
      (⟨2, fun _ _ => 0⟩ : PyFunc Nat).arity) ∧
    (((get_extractor (⟨2, fun _ _ => 0⟩ : PyFunc Nat) []).invoke
        [PyVal.obj]).1 =
      Except.error (arityMsg (⟨2, fun _ _ => 0⟩ : PyFunc Nat).arity
        ([PyVal.obj] : List PyVal).length) ∧
    ((get_extractor (⟨2, fun _ _ => 0⟩ : PyFunc Nat) []).invoke
        [PyVal.obj]).1 =
      pyCall (⟨2, fun _ _ => 0⟩ : PyFunc Nat) [PyVal.obj] []) :=
  ⟨by decide, get_extractor_arity_error_propagates Nat _ _ _ (by decide)⟩

/-- C9: the closure built by `get_extractor` retains no mutable state: its
captured function and configuration are unchanged by every invocation and
by any sequence of invocations, and over any call sequence two invocations
on equal input tuples (at any positions) produce equal results. -/
theorem get_extractor_stateless (β : Type) (f : PyFunc β) (kw : Kwargs)
    (tups : List (List PyVal)) (i j : Nat)
    (hij : tups[i]? = tups[j]?) :
    (∀ tup, ((get_extractor f kw).invoke tup).2 = get_extractor f kw) ∧
    (invokeSeq (get_extractor f kw) tups).2 = get_extractor f kw ∧
    (invokeSeq (get_extractor f kw) tups).1[i]? =
      (invokeSeq (get_extractor f kw) tups).1[j]? := by
  refine ⟨fun tup => rfl, ?_, ?_⟩
  · rw [invokeSeq_eq]
  · rw [invokeSeq_eq]
    simp only [List.getElem?_map, hij]

theorem get_extractor_stateless_witness :
    (([[PyVal.obj], [PyVal.seq 3], [PyVal.obj]] :
        List (List PyVal))[0]? =
      ([[PyVal.obj], [PyVal.seq 3], [PyVal.obj]] :
        List (List PyVal))[2]?) ∧
    ((∀ tup, ((get_extractor (⟨1, fun args _ => args.length⟩ : PyFunc Nat)
        []).invoke tup).2 =
      get_extractor (⟨1, fun args _ => args.length⟩ : PyFunc Nat) []) ∧
    (invokeSeq (get_extractor (⟨1, fun args _ => args.length⟩ : PyFunc Nat) [])
        [[PyVal.obj], [PyVal.seq 3], [PyVal.obj]]).2 =
      get_extractor (⟨1, fun args _ => args.length⟩ : PyFunc Nat) [] ∧
    (invokeSeq (get_extractor (⟨1, fun args _ => args.length⟩ : PyFunc Nat) [])
        [[PyVal.obj], [PyVal.seq 3], [PyVal.obj]]).1[0]? =
      (invokeSeq (get_extractor (⟨1, fun args _ => args.length⟩ : PyFunc Nat) [])
        [[PyVal.obj], [PyVal.seq 3], [PyVal.obj]]).1[2]?) :=
  ⟨by decide, get_extractor_stateless Nat _ _ _ 0 2 (by decide)⟩

/-- C10: when the MFCC extractor returns an empty result, the diagnostic
step itself evaluates `len(tup[1])`; for a tuple with fewer than two
elements, or whose second element has no length, `mix_feature` raises
there: it returns an error and writes no diagnostic line, so the
empty-MFCC tolerance only holds when the second element is a sized
sequence. -/
theorem mix_feature_diag_step_raises (env : Env α) (tup : List PyVal)
    (hempty : env.mfccExtract tup = [])
    (hbad : tup.length < 2 ∨ tup[1]? = some PyVal.obj) :
    ∃ e, (mix_feature env tup).1 = Except.error e ∧
      (mix_feature env tup).2.stderrLines = [] := by
  have hdiag : ∃ e, pyLenOfSecond tup = Except.error e := by
    rcases hbad with h | h
    · have hnone : tup[1]? = none := by
        rw [List.getElem?_eq_none_iff]; omega
      exact ⟨"IndexError: tuple index out of range",
        by simp [pyLenOfSecond, pyIndex, hnone]⟩
    · exact ⟨"TypeError: object has no len()",
        by simp [pyLenOfSecond, pyIndex, h, pyLen]⟩
  obtain ⟨e, he⟩ := hdiag
  exact ⟨e, by simp [mix_feature, hempty, he], by simp [mix_feature, hempty, he]⟩

theorem mix_feature_diag_step_raises_witness :
    ((⟨fun _ => [], fun _ => [[(5 : Int)]]⟩ : Env Int).mfccExtract [] = []) ∧
    (([] : List PyVal).length < 2 ∨ ([] : List PyVal)[1]? = some PyVal.obj) ∧
    ∃ e, (mix_feature (⟨fun _ => [], fun _ => [[(5 : Int)]]⟩ : Env Int) []).1 =
        Except.error e ∧
      (mix_feature (⟨fun _ => [], fun _ => [[(5 : Int)]]⟩ :
        Env Int) []).2.stderrLines = [] :=
  ⟨rfl, by decide,
    mix_feature_diag_step_raises _ _ rfl (by decide)⟩

end Feature
